import Mathlib

/-!
Verification of `min_hour_30deg.py`: a SpiceyPy script that builds a synthetic
SPK ("clock" with MINUTE and HOUR bodies orbiting a central CLOCK body),
validates the resulting geometry every half hour over one day, and counts
hand-alignment and 30-degree phase-angle events with the SPICE geometry finder.

The script's numeric computations are embedded over the reals.  The SPICE
toolkit itself (kernel pool, SPK type-5 two-body propagation, `vsep`, `gfpa`)
is an external collaborator; where a claim depends on its behaviour, that
behaviour is modelled from the specification's description of the collaborator
contracts, with a doc comment on the definition naming what is modelled.
-/

open Real

namespace MinHour

/-! ## Startup and kernel loading (lines 59-84)

The script furnishes itself (it doubles as a SPICE text kernel) and any
command-line arguments other than `--debug`, then reads `ET0` and `CLOCKSPK`
from the kernel pool.
-/

/-- The name-to-code mapping established by the script's own text-kernel block:
`NAIF_BODY_CODE += (2000000, 2000060, 2003600)`,
`NAIF_BODY_NAME += ('CLOCK', 'MINUTE', 'HOUR')`. -/
def naifBodyCode (s : String) : Option Int :=
  if s = "CLOCK" then some 2000000
  else if s = "MINUTE" then some 2000060
  else if s = "HOUR" then some 2003600
  else none

/-- The list comprehension at line 64: every element of `sys.argv` other than
the literal `--debug`.  This is the list of kernels the script intends to
furnish (`sys.argv[0]` is the script itself, which doubles as a text kernel). -/
def furnshArgs (argv : List String) : List String :=
  argv.filter (fun a => a ≠ "--debug")

/-- The kernels actually furnished by line 64,
`map(sp.furnsh, [arg for arg in sys.argv if arg != '--debug'])`, under
Python 3 semantics: `map` returns a lazy iterator, the iterator is discarded
without ever being consumed, so `sp.furnsh` is never invoked and no kernel at
all is loaded before the kernel-pool queries at lines 83-84. -/
def furnishedAtStartup (_argv : List String) : List String := []

/-- Whether `sp.gdpool('ET0', 0, 1)` (line 83) succeeds: the only furnished
kernel that assigns `ET0` (and `CLOCKSPK`) is the script itself, so the pool
read succeeds exactly when the script has been furnished. -/
def poolHasET0 (furnished : List String) (script : String) : Bool :=
  furnished.contains script

/-- The `--debug` flag detection at line 67. -/
def doDebug (argv : List String) : Bool := argv.contains "--debug"

/-! ## SPK build call trace (lines 86-159)

The build is straight-line code guarded by `os.path.exists`:
`spkopn`, two `spkw05` writes, `spkcls`.  There is no `try/finally` or context
manager, so under Python exception semantics a raising write aborts the
remaining calls and the handle is never closed.
-/

/-- One call against the SPK writer during the build. -/
inductive SpkCall where
  | spkopn : SpkCall
  | spkw05 : String → SpkCall
  | spkcls : SpkCall
deriving DecidableEq

/-- The sequence of SPK writer calls performed by lines 121-159, given which of
the two `sp.spkw05` calls raises.  Straight-line code with no handler: a
raising call is the last call made, and `sp.spkcls` (line 159) is reached only
when neither write raises. -/
def buildCallTrace (write1Raises write2Raises : Bool) : List SpkCall :=
  [SpkCall.spkopn] ++
    (if write1Raises then [SpkCall.spkw05 "minute_orbit"]
     else [SpkCall.spkw05 "minute_orbit"] ++
       (if write2Raises then [SpkCall.spkw05 "hour_orbit"]
        else [SpkCall.spkw05 "hour_orbit", SpkCall.spkcls]))

/-! ## Time constants (lines 72-84) -/

/-- Seconds per minute, `sp.convrt(1.0, 'minutes', 'seconds')`. -/
def spm : ℝ := 60

/-- Seconds per hour, `sp.convrt(1.0, 'hours', 'seconds')`. -/
def sph : ℝ := 3600

/-- Hours per day, `sp.convrt(1.0, 'days', 'hours')`. -/
def hpd : ℝ := 24

/-- Seconds per day, `sp.spd()`. -/
def spd : ℝ := 86400

noncomputable section

/-- `sp.twopi()`. -/
def twopi : ℝ := 2 * π

/-- Degrees per radian, `sp.dpr()`. -/
def dpr : ℝ := 180 / π

/-- The reference epoch read from the pool at line 83.  The script's text
kernel assigns `ET0 = @2000-01-01-00:00:00.000`; the external toolkit parses
`@`-dates in text kernels as TDB seconds past the J2000 epoch, and the J2000
epoch is 2000-01-01T12:00:00 TDB (noon), so this calendar midnight is 43200
seconds before the epoch. -/
def et0 : ℝ := -43200

/-! ## Orbit parameter solver (lines 109-115)

`a = (T / (2 PI))**(2/3)` and `v = a**(-0.5)`, computed once with `T` equal to
one hour (minute hand) and once with `T` equal to half a day (hour hand),
under the assumed `mu = 1.0`.
-/

/-- Semi-major axis of a circular orbit of period `period` with `mu = 1`:
the common formula of lines 110 and 114. -/
def solveA (period : ℝ) : ℝ := (period / twopi) ^ ((2 : ℝ) / 3)

/-- Tangential speed of that circular orbit: the common formula of
lines 111 and 115. -/
def solveV (period : ℝ) : ℝ := solveA period ^ (-(1 / 2) : ℝ)

/-- Line 110: `aMinute = (sph/twopi) ** (2.0/3.0)`. -/
def aMinute : ℝ := (sph / twopi) ^ ((2 : ℝ) / 3)

/-- Line 111: `spdMinute = aMinute ** (-0.5)`. -/
def spdMinute : ℝ := aMinute ^ (-(1 / 2) : ℝ)

/-- Line 114: `aHour = ((spd/2)/twopi) ** (2.0/3.0)`. -/
def aHour : ℝ := (spd / 2 / twopi) ^ ((2 : ℝ) / 3)

/-- Line 115: `spdHour = aHour ** (-0.5)`. -/
def spdHour : ℝ := aHour ^ (-(1 / 2) : ℝ)

/-! ## Vectors and the SPICE vector routines used by the validation loop -/

/-- A 3-vector, as passed to and returned by the toolkit's vector routines. -/
structure Vec3 where
  x : ℝ
  y : ℝ
  z : ℝ

/-- Dot product (used by `sp.vsep` and `sp.vnorm`). -/
def vdot (u v : Vec3) : ℝ := u.x * v.x + u.y * v.y + u.z * v.z

/-- `sp.vnorm`: Euclidean norm. -/
def vnorm (u : Vec3) : ℝ := Real.sqrt (vdot u u)

/-- `sp.vsub`: componentwise difference. -/
def vsub (u v : Vec3) : Vec3 := ⟨u.x - v.x, u.y - v.y, u.z - v.z⟩

/-- `sp.vhat`: unit vector along `u`. -/
def vhat (u : Vec3) : Vec3 := ⟨u.x / vnorm u, u.y / vnorm u, u.z / vnorm u⟩

/-- `sp.vsep`: angular separation of two vectors, in radians, in `[0, pi]`. -/
def vsep (u v : Vec3) : ℝ := Real.arccos (vdot u v / (vnorm u * vnorm v))

/-! ## SPK segments written by the build (lines 118-156) -/

/-- One state sample passed to `sp.spkw05` (position and velocity). -/
structure StateVec where
  pos : Vec3
  vel : Vec3

/-- One type-5 SPK segment as written by `sp.spkw05`: target body, center,
frame, segment epoch limits, segment identifier, gravitational parameter,
the state samples and their epochs. -/
structure Segment where
  body : Int
  center : Int
  frame : String
  first : ℝ
  last : ℝ
  segid : String
  mu : ℝ
  n : ℕ
  states : List StateVec
  epochs : List ℝ

/-- The constant minute-hand state `[aMinute,0,0, 0,spdMinute,0]`
(lines 140-141). -/
def minuteState : StateVec := ⟨⟨aMinute, 0, 0⟩, ⟨0, spdMinute, 0⟩⟩

/-- The constant hour-hand state `[aHour,0,0, 0,spdHour,0]` (lines 152-153). -/
def hourState : StateVec := ⟨⟨aHour, 0, 0⟩, ⟨0, spdHour, 0⟩⟩

/-- The first `sp.spkw05` call (lines 135-144): MINUTE (2000060) relative to
CLOCK (2000000) in J2000, segment epoch limits `-spd` and `2*spd`, identifier
`minute_orbit`, `mu = 1.0`, epoch count 2, the constant state at epochs
`-spd` and `2*spd`. -/
def minuteSegment : Segment :=
  ⟨2000060, 2000000, "J2000", -spd, 2 * spd, "minute_orbit", 1.0, 2,
    [minuteState, minuteState], [-spd, 2 * spd]⟩

/-- The second `sp.spkw05` call (lines 147-156): HOUR (2003600) relative to
CLOCK in J2000, same epoch limits, identifier `hour_orbit`. -/
def hourSegment : Segment :=
  ⟨2003600, 2000000, "J2000", -spd, 2 * spd, "hour_orbit", 1.0, 2,
    [hourState, hourState], [-spd, 2 * spd]⟩

/-! ## Trajectory propagation and queries

Modelled from the spec: the trajectory store is an external collaborator; a
"circular orbit" is a constant-radius, constant-speed trajectory around the
center fully described by one position+velocity sample under the idealized
two-body model.  Propagating the sample `pos = (r,0,0)`, `vel = (0,v,0)` from
its tag epoch is therefore uniform circular motion in the XY plane with
angular rate `v/r`.
-/

/-- Modelled from the spec: position at time `t` of a body on the circular
orbit through `(r,0,0)` with velocity `(0,v,0)` at epoch `epoch` (the
two-body propagation the external store applies to a type-5 segment). -/
def circPos (r v epoch t : ℝ) : Vec3 :=
  ⟨r * Real.cos (v / r * (t - epoch)), r * Real.sin (v / r * (t - epoch)), 0⟩

/-- Modelled from the spec: velocity of the same circular motion. -/
def circVel (r v epoch t : ℝ) : Vec3 :=
  ⟨-(v * Real.sin (v / r * (t - epoch))), v * Real.cos (v / r * (t - epoch)), 0⟩

/-- State of MINUTE relative to CLOCK at epoch `t` (position part of
`sp.spkezr('MINUTE', t, 'J2000', 'NONE', 'CLOCK')`), propagated from the
minute segment's first sample at epoch `-spd`. -/
def posMinute (t : ℝ) : Vec3 := circPos aMinute spdMinute (-spd) t

/-- Velocity of MINUTE relative to CLOCK at epoch `t`. -/
def velMinute (t : ℝ) : Vec3 := circVel aMinute spdMinute (-spd) t

/-- State of HOUR relative to CLOCK at epoch `t` (position part). -/
def posHour (t : ℝ) : Vec3 := circPos aHour spdHour (-spd) t

/-- Velocity of HOUR relative to CLOCK at epoch `t`. -/
def velHour (t : ℝ) : Vec3 := circVel aHour spdHour (-spd) t

/-! ## The persisted store and the idempotent build (lines 86-165) -/

/-- The persisted SPK file: the ordered segments it holds. -/
structure SpkFile where
  segments : List Segment

/-- The content the build writes to `min_hour_clock.bsp`: the minute segment
then the hour segment. -/
def clockSpkContent : SpkFile := ⟨[minuteSegment, hourSegment]⟩

/-- Lines 86-159: `if not os.path.exists(fnClockSpk): ...` — build the SPK
only when the file is absent.  Input is the current file state (`none` when
absent); output is the new file state and whether a write occurred. -/
def buildIfAbsent (clockSpk : Option SpkFile) : Option SpkFile × Bool :=
  match clockSpk with
  | some f => (some f, false)
  | none => (some clockSpkContent, true)

/-- The first state sample of a segment (the one the store propagates for a
constant circular segment). -/
def segSample (s : Segment) : StateVec := s.states.headD ⟨⟨0, 0, 0⟩, ⟨0, 0, 0⟩⟩

/-- Modelled from the spec: a store query (`queryState`) for `body` at epoch
`t`, answered from the file's first segment for that body by circular-orbit
propagation of its first sample from that sample's epoch. -/
def spkQuery (f : SpkFile) (body : Int) (t : ℝ) : Option Vec3 :=
  ((f.segments.filter (fun s => s.body == body)).head?).map fun s =>
    circPos (segSample s).pos.x (segSample s).vel.y (s.epochs.headD 0) t

/-! ## Validation-loop quantities (lines 167-198) -/

/-- Line 169: `halfHour = sph / 2.0`. -/
def halfHour : ℝ := sph / 2

/-- Line 170: `degPerHour = 2.0 * dpr * twopi / hpd`. -/
def degPerHour : ℝ := 2 * dpr * twopi / hpd

/-- Line 172: `xTolerance = lambda xDiff: xDiff < 1e-10`. -/
def xTolerance (xDiff : ℝ) : Prop := xDiff < 1e-10

/-- Line 173: `xDiffTolerance = lambda x, xExpect: xTolerance(abs(x-xExpect))`. -/
def xDiffTolerance (x xExpect : ℝ) : Prop := xTolerance |x - xExpect|

/-! ## The event searches (lines 203-258)

Modelled from the spec: `sp.gfpa` is the external geometry finder.  Its scalar
is the phase angle at the first body (CLOCK) subtended by the rays to the
illuminator (MINUTE) and the observer (HOUR); with relation `LOCMIN` it
returns the time windows where that scalar attains a local minimum inside the
confinement window, and with relation `=` the times where it equals the
reference value.  For this configuration every event is an isolated instant,
so each result interval is degenerate and the result cardinality is the
number of event times.  The one-minute step (`spm`) is far below the
3927-second beat period of the two hands, so no event is missed by the
step/refinement scheme the spec describes.
-/

/-- The phase angle monitored by both searches: the angle at CLOCK between
the rays to MINUTE and HOUR at epoch `t`. -/
def phaseAngle (t : ℝ) : ℝ := vsep (posMinute t) (posHour t)

/-- Analysis helper: the angular distance of `x` to the nearest multiple of
`2*pi`, written through `arccos (cos x)`.  The phase angle of the two hands
equals this function of a linear function of time. -/
def wrapAngle (x : ℝ) : ℝ := Real.arccos (Real.cos x)

/-- Modelled from the spec: the event times found by
`sp.gfpa(CLOCK, MINUTE, 'NONE', HOUR, 'LOCMIN', ..., cnfine, result)` with
confinement window `[a, b]` — the epochs in the window where the phase angle
attains a local minimum. -/
def gfpaLocmin (a b : ℝ) : Set ℝ :=
  {t | t ∈ Set.Icc a b ∧ IsLocalMin phaseAngle t}

/-- Modelled from the spec: the event times found by
`sp.gfpa(CLOCK, MINUTE, 'NONE', HOUR, '=', refval, ..., cnfine, result)` with
confinement window `[a, b]` — the epochs in the window where the phase angle
equals `refval`. -/
def gfpaEquals (refval a b : ℝ) : Set ℝ :=
  {t | t ∈ Set.Icc a b ∧ phaseAngle t = refval}

end

/-! ## Basic facts about the solved orbit parameters -/

lemma twopi_pos : 0 < twopi := by rw [twopi]; positivity

lemma sph_pos : 0 < sph := by rw [sph]; norm_num

lemma halfday_pos : 0 < spd / 2 := by rw [spd]; norm_num

lemma aMinute_pos : 0 < aMinute :=
  Real.rpow_pos_of_pos (div_pos sph_pos twopi_pos) _

lemma aHour_pos : 0 < aHour :=
  Real.rpow_pos_of_pos (div_pos halfday_pos twopi_pos) _

/-- The tangential-speed-to-radius ratio recovers the desired angular rate:
`v / a = 2*pi / T` for any positive period. -/
lemma solve_ratio (p : ℝ) (hp : 0 < p) : solveV p / solveA p = twopi / p := by
  have hs : 0 < p / twopi := div_pos hp twopi_pos
  have h1 : solveV p = (p / twopi) ^ (-(1 : ℝ) / 3) := by
    rw [solveV, solveA, ← Real.rpow_mul hs.le]
    norm_num
  rw [h1, solveA, ← Real.rpow_sub hs]
  have h2 : (-(1 : ℝ) / 3 - 2 / 3) = -1 := by norm_num
  rw [h2, Real.rpow_neg_one, inv_div]

/-- Angular rate of the minute hand, one revolution per hour. -/
lemma omegaMinute : spdMinute / aMinute = π / 1800 := by
  have e1 : spdMinute = solveV sph := rfl
  have e2 : aMinute = solveA sph := rfl
  rw [e1, e2, solve_ratio sph sph_pos, twopi, sph]
  ring

/-- Angular rate of the hour hand, one revolution per half day. -/
lemma omegaHour : spdHour / aHour = π / 21600 := by
  have e1 : spdHour = solveV (spd / 2) := rfl
  have e2 : aHour = solveA (spd / 2) := rfl
  rw [e1, e2, solve_ratio (spd / 2) halfday_pos, twopi, spd]
  ring

lemma cos_two_pi_int (k : ℤ) : Real.cos (k * (2 * π)) = 1 :=
  Real.cos_int_mul_two_pi k

lemma sin_two_pi_int (k : ℤ) : Real.sin (k * (2 * π)) = 0 := by
  have h : (k : ℝ) * (2 * π) = ((2 * k : ℤ) : ℝ) * π := by push_cast; ring
  rw [h, Real.sin_int_mul_pi]

/-! ## Vector geometry helpers -/

lemma vnorm_circ (r c s : ℝ) (hr : 0 < r) (hcs : s ^ 2 + c ^ 2 = 1) :
    vnorm ⟨r * c, r * s, 0⟩ = r := by
  rw [vnorm, vdot]
  have h : r * c * (r * c) + r * s * (r * s) + 0 * 0 = r ^ 2 * (s ^ 2 + c ^ 2) := by
    ring
  rw [h, hcs, mul_one, Real.sqrt_sq hr.le]

lemma vhat_circ (r c s : ℝ) (hr : 0 < r) (hcs : s ^ 2 + c ^ 2 = 1) :
    vhat ⟨r * c, r * s, 0⟩ = ⟨c, s, 0⟩ := by
  have hr' : r ≠ 0 := ne_of_gt hr
  rw [vhat, vnorm_circ r c s hr hcs]
  simp only [Vec3.mk.injEq]
  refine ⟨?_, ?_, ?_⟩ <;> field_simp

lemma vsep_circ (r1 r2 α β : ℝ) (h1 : 0 < r1) (h2 : 0 < r2) :
    vsep ⟨r1 * Real.cos α, r1 * Real.sin α, 0⟩ ⟨r2 * Real.cos β, r2 * Real.sin β, 0⟩ =
      Real.arccos (Real.cos (α - β)) := by
  rw [vsep, vnorm_circ r1 _ _ h1 (Real.sin_sq_add_cos_sq α),
    vnorm_circ r2 _ _ h2 (Real.sin_sq_add_cos_sq β), vdot]
  congr 1
  rw [Real.cos_sub]
  field_simp
  ring

/-- The monitored phase angle in closed form: the angle between the hands is
the absolute angular distance of `11*pi/21600 * (t + spd)` to the nearest
multiple of `2*pi`, expressed through `arccos (cos _)`. -/
lemma phaseAngle_eq (t : ℝ) :
    phaseAngle t = Real.arccos (Real.cos (11 * π / 21600 * (t + spd))) := by
  rw [phaseAngle, posMinute, posHour, circPos, circPos,
    vsep_circ aMinute aHour _ _ aMinute_pos aHour_pos]
  congr 1
  rw [omegaMinute, omegaHour]
  ring

/-! ## Calculus of the wrapped angle -/

lemma wrap_period (x : ℝ) (k : ℤ) : wrapAngle (x + k * (2 * π)) = wrapAngle x := by
  rw [wrapAngle, wrapAngle, Real.cos_add_int_mul_two_pi]

lemma wrap_even (x : ℝ) : wrapAngle (-x) = wrapAngle x := by
  rw [wrapAngle, wrapAngle, Real.cos_neg]

lemma wrap_nonneg (x : ℝ) : 0 ≤ wrapAngle x := Real.arccos_nonneg _

lemma wrap_eq_self {x : ℝ} (h0 : 0 ≤ x) (h1 : x ≤ π) : wrapAngle x = x :=
  Real.arccos_cos h0 h1

lemma wrap_eq_rev {x : ℝ} (h0 : π ≤ x) (h1 : x ≤ 2 * π) :
    wrapAngle x = 2 * π - x := by
  have hpi := Real.pi_pos
  have h : wrapAngle x = wrapAngle (2 * π - x) := by
    have e : (2 : ℝ) * π - x = -x + (1 : ℤ) * (2 * π) := by
      rw [Int.cast_one]; ring
    rw [e, wrap_period, wrap_even]
  rw [h, wrap_eq_self (by linarith) (by linarith)]

lemma wrap_reduce (x : ℝ) :
    ∃ k : ℤ, 0 ≤ x - k * (2 * π) ∧ x - k * (2 * π) < 2 * π := by
  have h2π : (0 : ℝ) < 2 * π := by positivity
  refine ⟨⌊x / (2 * π)⌋, ?_, ?_⟩
  · have h := Int.floor_le (x / (2 * π))
    have h2 : (⌊x / (2 * π)⌋ : ℝ) * (2 * π) ≤ x := (le_div_iff₀ h2π).mp h
    linarith
  · have h := Int.lt_floor_add_one (x / (2 * π))
    have h2 : x < ((⌊x / (2 * π)⌋ : ℝ) + 1) * (2 * π) := (div_lt_iff₀ h2π).mp h
    nlinarith

lemma wrap_zero_iff (x : ℝ) : wrapAngle x = 0 ↔ ∃ k : ℤ, x = k * (2 * π) := by
  constructor
  · intro h
    have h1 : Real.cos (wrapAngle x) = Real.cos x :=
      Real.cos_arccos (Real.neg_one_le_cos x) (Real.cos_le_one x)
    rw [h, Real.cos_zero] at h1
    obtain ⟨k, hk⟩ := (Real.cos_eq_one_iff x).mp h1.symm
    exact ⟨k, hk.symm⟩
  · rintro ⟨k, rfl⟩
    have e : (k : ℝ) * (2 * π) = 0 + k * (2 * π) := by ring
    rw [e, wrap_period, wrapAngle, Real.cos_zero, Real.arccos_one]

lemma wrap_pi_six_iff (x : ℝ) :
    wrapAngle x = π / 6 ↔
      ∃ k : ℤ, x = π / 6 + k * (2 * π) ∨ x = -(π / 6) + k * (2 * π) := by
  have hpi := Real.pi_pos
  constructor
  · intro h
    have h1 : Real.cos (wrapAngle x) = Real.cos x :=
      Real.cos_arccos (Real.neg_one_le_cos x) (Real.cos_le_one x)
    rw [h] at h1
    have hc : Real.cos x = Real.cos (π / 6) := h1.symm
    obtain ⟨k, hk | hk⟩ := Real.cos_eq_cos_iff.mp hc
    · exact ⟨-k, Or.inl (by push_cast; linarith)⟩
    · exact ⟨k, Or.inr (by linarith)⟩
  · rintro ⟨k, rfl | rfl⟩
    · rw [wrap_period, wrap_eq_self (by linarith) (by linarith)]
    · rw [wrap_period, wrap_even, wrap_eq_self (by linarith) (by linarith)]

/-- Local minima of a positively-sweeping wrapped angle occur exactly at the
multiples of `2*pi` of its argument. -/
lemma isLocalMin_wrap_iff (c d t : ℝ) (hc : 0 < c) :
    IsLocalMin (fun u => wrapAngle (c * (u + d))) t ↔
      ∃ k : ℤ, c * (t + d) = k * (2 * π) := by
  have hpi := Real.pi_pos
  constructor
  · intro hmin
    by_contra hno
    push_neg at hno
    obtain ⟨k, hk0, hk2⟩ := wrap_reduce (c * (t + d))
    set y := c * (t + d) - k * (2 * π) with hy
    have hy0 : y ≠ 0 := by
      intro h0
      exact hno k (by linarith)
    have hypos : 0 < y := lt_of_le_of_ne hk0 (Ne.symm hy0)
    have hev : ∀ᶠ u in nhds t,
        wrapAngle (c * (t + d)) ≤ wrapAngle (c * (u + d)) := hmin
    obtain ⟨ε, hε, hball⟩ := Metric.eventually_nhds_iff.mp hev
    by_cases hyπ : y ≤ π
    · -- strictly smaller value just to the left
      set δ := min (ε / 2) (y / (2 * c)) with hδ
      have hδpos : 0 < δ := lt_min (by linarith) (by positivity)
      have hδy : c * δ ≤ y / 2 := by
        have h1 : δ ≤ y / (2 * c) := min_le_right _ _
        calc c * δ ≤ c * (y / (2 * c)) := by nlinarith
          _ = y / 2 := by field_simp; ring
      have hcd0 : 0 < c * δ := mul_pos hc hδpos
      have hft : wrapAngle (c * (t + d)) = y := by
        have e : c * (t + d) = y + k * (2 * π) := by rw [hy]; ring
        rw [e, wrap_period, wrap_eq_self hypos.le hyπ]
      have hfu : wrapAngle (c * (t - δ + d)) = y - c * δ := by
        have e : c * (t - δ + d) = (y - c * δ) + k * (2 * π) := by rw [hy]; ring
        rw [e, wrap_period, wrap_eq_self (by linarith) (by linarith)]
      have hdist : dist (t - δ) t < ε := by
        have e : t - δ - t = -δ := by ring
        rw [Real.dist_eq, e, abs_neg, abs_of_pos hδpos]
        calc δ ≤ ε / 2 := min_le_left _ _
          _ < ε := by linarith
      have hle := hball hdist
      rw [hft, hfu] at hle
      have hcd : 0 < c * δ := mul_pos hc hδpos
      linarith
    · -- strictly smaller value just to the right
      push_neg at hyπ
      set δ := min (ε / 2) ((2 * π - y) / (2 * c)) with hδ
      have hgap : 0 < 2 * π - y := by linarith
      have hδpos : 0 < δ := lt_min (by linarith) (by positivity)
      have hδy : c * δ ≤ (2 * π - y) / 2 := by
        have h1 : δ ≤ (2 * π - y) / (2 * c) := min_le_right _ _
        calc c * δ ≤ c * ((2 * π - y) / (2 * c)) := by nlinarith
          _ = (2 * π - y) / 2 := by field_simp; ring
      have hcd0 : 0 < c * δ := mul_pos hc hδpos
      have hft : wrapAngle (c * (t + d)) = 2 * π - y := by
        have e : c * (t + d) = y + k * (2 * π) := by rw [hy]; ring
        rw [e, wrap_period, wrap_eq_rev hyπ.le (by linarith)]
      have hfu : wrapAngle (c * (t + δ + d)) = 2 * π - y - c * δ := by
        have e : c * (t + δ + d) = (y + c * δ) + k * (2 * π) := by rw [hy]; ring
        have hr : wrapAngle ((y + c * δ) + k * (2 * π)) = 2 * π - (y + c * δ) := by
          rw [wrap_period, wrap_eq_rev (by linarith) (by linarith)]
        rw [e, hr]
        ring
      have hdist : dist (t + δ) t < ε := by
        have e : t + δ - t = δ := by ring
        rw [Real.dist_eq, e, abs_of_pos hδpos]
        calc δ ≤ ε / 2 := min_le_left _ _
          _ < ε := by linarith
      have hle := hball hdist
      rw [hft, hfu] at hle
      have hcd : 0 < c * δ := mul_pos hc hδpos
      linarith
  · rintro ⟨k, hk⟩
    have h0 : wrapAngle ((k : ℝ) * (2 * π)) = 0 := (wrap_zero_iff _).mpr ⟨k, rfl⟩
    show ∀ᶠ u in nhds t, wrapAngle (c * (t + d)) ≤ wrapAngle (c * (u + d))
    refine Filter.Eventually.of_forall fun u => ?_
    rw [hk, h0]
    exact wrap_nonneg _

/-- The local minima of the phase angle, solved for time: the coincidence
epochs `43200*k/11 - 86400` (TDB), one per beat period of the hands. -/
lemma locmin_phase_iff (t : ℝ) :
    IsLocalMin phaseAngle t ↔ ∃ k : ℤ, t = 43200 * k / 11 - 86400 := by
  have hpi := Real.pi_pos
  have hfun : phaseAngle = fun u => wrapAngle (11 * π / 21600 * (u + spd)) := by
    funext u
    rw [phaseAngle_eq, wrapAngle]
  rw [hfun, isLocalMin_wrap_iff _ _ _ (by positivity)]
  rw [spd]
  constructor
  · rintro ⟨k, hk⟩
    refine ⟨k, ?_⟩
    have h3 : π * (11 * (t + 86400)) = π * (43200 * k) := by ring_nf; ring_nf at hk; linarith
    have h4 := mul_left_cancel₀ Real.pi_ne_zero h3
    linarith
  · rintro ⟨k, rfl⟩
    refine ⟨k, ?_⟩
    field_simp
    ring

/-- The 30-degree crossings of the phase angle, solved for time. -/
lemma equals_phase_iff (t : ℝ) :
    phaseAngle t = π / 6 ↔
      ∃ k : ℤ, t = (43200 * k + 3600) / 11 - 86400 ∨
        t = (43200 * k - 3600) / 11 - 86400 := by
  have hpi := Real.pi_pos
  rw [phaseAngle_eq, ← wrapAngle, wrap_pi_six_iff, spd]
  constructor
  · rintro ⟨k, hk | hk⟩
    · refine ⟨k, Or.inl ?_⟩
      have h3 : π * (11 * (t + 86400)) = π * (43200 * k + 3600) := by
        ring_nf; ring_nf at hk; linarith
      have h4 := mul_left_cancel₀ Real.pi_ne_zero h3
      linarith
    · refine ⟨k, Or.inr ?_⟩
      have h3 : π * (11 * (t + 86400)) = π * (43200 * k - 3600) := by
        ring_nf; ring_nf at hk; linarith
      have h4 := mul_left_cancel₀ Real.pi_ne_zero h3
      linarith
  · rintro ⟨k, rfl | rfl⟩
    · refine ⟨k, Or.inl ?_⟩
      field_simp
      ring
    · refine ⟨k, Or.inr ?_⟩
      field_simp
      ring

/-! ## Claim C3: startup kernel loading (code bug)

Line 64 reads `map(sp.furnsh, [arg for arg in sys.argv if arg != '--debug'])`
and discards the result.  Under Python 3, `map` is lazy and the discarded
iterator is never consumed, so `sp.furnsh` is never invoked: the script (which
carries the `ET0` and `CLOCKSPK` assignments in its text-kernel block) is not
loaded, and the pool reads at lines 83-84 fail — contradicting the comment at
lines 61-63 and the claim.
-/

/-- C3: under Python 3 semantics nothing is furnished at startup, although the
intended list (the script plus all non-`--debug` arguments) is nonempty, so
the `ET0` pool read finds nothing.  The claim is the code's clear intent
(comment at lines 61-63); the lazy, discarded `map` is the bug. -/
theorem C3_furnsh_never_runs :
    furnishedAtStartup ["min_hour_30deg.py", "--debug"] = [] ∧
    furnshArgs ["min_hour_30deg.py", "--debug"] = ["min_hour_30deg.py"] ∧
    poolHasET0 (furnishedAtStartup ["min_hour_30deg.py", "--debug"])
      "min_hour_30deg.py" = false ∧
    poolHasET0 (furnshArgs ["min_hour_30deg.py", "--debug"])
      "min_hour_30deg.py" = true := by
  refine ⟨rfl, rfl, rfl, rfl⟩

/-! ## Claim C6: orbit parameter solver consistency -/

/-- C6: for every positive period with `mu = 1`, the solver returns
`a = (T/(2*pi))^(2/3)` and `v = a^(-1/2)`, both positive, and the implied
period `2*pi*a/v` equals `T` (exactly, hence within `1e-9` relative
tolerance). -/
theorem C6_solver_consistency (T : ℝ) (hT : 0 < T) :
    0 < solveA T ∧ 0 < solveV T ∧
    solveA T = (T / twopi) ^ ((2 : ℝ) / 3) ∧
    solveV T = solveA T ^ (-(1 / 2) : ℝ) ∧
    twopi * solveA T / solveV T = T ∧
    |twopi * solveA T / solveV T - T| ≤ 1e-9 * |T| := by
  have hs : 0 < T / twopi := div_pos hT twopi_pos
  have ha : 0 < solveA T := Real.rpow_pos_of_pos hs _
  have hv : 0 < solveV T := Real.rpow_pos_of_pos ha _
  have hr := solve_ratio T hT
  rw [div_eq_div_iff (ne_of_gt ha) (ne_of_gt hT)] at hr
  have hmain : twopi * solveA T / solveV T = T := by
    rw [div_eq_iff (ne_of_gt hv)]
    linarith [hr]
  refine ⟨ha, hv, rfl, rfl, hmain, ?_⟩
  rw [hmain, sub_self, abs_zero]
  positivity

/-- Witness for C6 at the concrete period `sph` (one hour). -/
theorem C6_witness :
    0 < solveA sph ∧ 0 < solveV sph ∧
    solveA sph = (sph / twopi) ^ ((2 : ℝ) / 3) ∧
    solveV sph = solveA sph ^ (-(1 / 2) : ℝ) ∧
    twopi * solveA sph / solveV sph = sph ∧
    |twopi * solveA sph / solveV sph - sph| ≤ 1e-9 * |sph| :=
  C6_solver_consistency sph sph_pos

/-! ## Claim C7: segment epochs and validity window (corrected)

The build passes the literal epochs `-spd` and `2*spd` to `sp.spkw05`
(lines 137, 143, 149, 155).  On the TDB scale those are
`-dayLength` and `+2*dayLength` — but the reference epoch `ET0` is
`-43200` (calendar midnight, half a day before the J2000 epoch), so relative
to `ET0` the two epochs are `ET0 - dayLength/2` and `ET0 + 5/2*dayLength`,
not `ET0 - dayLength` and `ET0 + 2*dayLength` as claimed; in particular the
store cannot answer a query at `ET0 - dayLength = -129600`, which lies
outside the segment validity window `[-86400, 172800]`.
-/

/-- C7 counterexample: the written epochs are not
`[ET0 - dayLength, ET0 + 2*dayLength]`, and the epoch `ET0 - dayLength`
is outside the segment's validity window. -/
theorem C7_counterexample :
    minuteSegment.epochs ≠ [et0 - spd, et0 + 2 * spd] ∧
    (et0 - spd) ∉ Set.Icc minuteSegment.first minuteSegment.last := by
  constructor
  · intro h
    have h1 : -spd = et0 - spd := by
      have h2 := congrArg (fun l => l.headD 0) h
      simpa [minuteSegment] using h2
    rw [et0, spd] at h1
    norm_num at h1
  · simp only [minuteSegment, Set.mem_Icc, et0, spd, not_and, not_le]
    norm_num

/-- C7 as amended: each moving body's constant state is written exactly twice,
at the epochs `-dayLength` and `+2*dayLength` of the TDB scale — i.e.
`ET0 - dayLength/2` and `ET0 + 5/2*dayLength` — and those two epochs bound the
segment validity window, so the store answers state queries for any epoch in
`[ET0 - dayLength/2, ET0 + 5/2*dayLength]`. -/
theorem C7_amended :
    (∀ t : ℝ, et0 - spd / 2 ≤ t → t ≤ et0 + 5 / 2 * spd →
      spkQuery clockSpkContent 2000060 t = some (posMinute t) ∧
      spkQuery clockSpkContent 2003600 t = some (posHour t)) ∧
    minuteSegment.n = 2 ∧ minuteSegment.states.length = 2 ∧
    hourSegment.n = 2 ∧ hourSegment.states.length = 2 ∧
    minuteSegment.epochs = [et0 - spd / 2, et0 + 5 / 2 * spd] ∧
    hourSegment.epochs = [et0 - spd / 2, et0 + 5 / 2 * spd] ∧
    minuteSegment.first = et0 - spd / 2 ∧ minuteSegment.last = et0 + 5 / 2 * spd ∧
    hourSegment.first = et0 - spd / 2 ∧ hourSegment.last = et0 + 5 / 2 * spd := by
  have he1 : (-spd : ℝ) = et0 - spd / 2 := by rw [et0, spd]; norm_num
  have he2 : (2 * spd : ℝ) = et0 + 5 / 2 * spd := by rw [et0, spd]; norm_num
  refine ⟨fun t _ _ => ⟨rfl, rfl⟩, rfl, rfl, rfl, rfl, ?_, ?_, he1, he2, he1, he2⟩
  · show [-spd, 2 * spd] = _
    rw [he1, he2]
  · show [-spd, 2 * spd] = _
    rw [he1, he2]

/-- Witness for the amended C7 at the concrete epoch `0`. -/
theorem C7_amended_witness :
    spkQuery clockSpkContent 2000060 0 = some (posMinute 0) ∧
    spkQuery clockSpkContent 2003600 0 = some (posHour 0) :=
  C7_amended.1 0 (by rw [et0, spd]; norm_num) (by rw [et0, spd]; norm_num)

/-! ## Claim C8: initial state at the reference epoch -/

/-- C8: at the reference epoch each moving body sits at `(a, 0, 0)` with
velocity `(0, v, 0)`, where `(a, v)` are the solver outputs for its period —
one hour for the minute hand, half a day for the hour hand.  (The stored
samples are tagged at epoch `-spd`, but both hands complete a whole number of
revolutions between `-spd` and `ET0`.) -/
theorem C8_initial_state :
    posMinute et0 = ⟨aMinute, 0, 0⟩ ∧ velMinute et0 = ⟨0, spdMinute, 0⟩ ∧
    posHour et0 = ⟨aHour, 0, 0⟩ ∧ velHour et0 = ⟨0, spdHour, 0⟩ ∧
    aMinute = solveA sph ∧ spdMinute = solveV sph ∧
    aHour = solveA (spd / 2) ∧ spdHour = solveV (spd / 2) := by
  have hm : spdMinute / aMinute * (et0 - -spd) = ((12 : ℤ) : ℝ) * (2 * π) := by
    rw [omegaMinute, et0, spd]; push_cast; ring
  have hh : spdHour / aHour * (et0 - -spd) = ((1 : ℤ) : ℝ) * (2 * π) := by
    rw [omegaHour, et0, spd]; push_cast; ring
  refine ⟨?_, ?_, ?_, ?_, rfl, rfl, rfl, rfl⟩
  · show circPos aMinute spdMinute (-spd) et0 = _
    rw [circPos, hm, cos_two_pi_int, sin_two_pi_int]
    simp
  · show circVel aMinute spdMinute (-spd) et0 = _
    rw [circVel, hm, cos_two_pi_int, sin_two_pi_int]
    simp
  · show circPos aHour spdHour (-spd) et0 = _
    rw [circPos, hh, cos_two_pi_int, sin_two_pi_int]
    simp
  · show circVel aHour spdHour (-spd) et0 = _
    rw [circVel, hh, cos_two_pi_int, sin_two_pi_int]
    simp

/-! ## Claim C9: idempotent build -/

/-- C9: from any starting file state, a second `buildIfAbsent` performs no
write and leaves the store (and hence every query answer) identical to the
state after the first call. -/
theorem C9_idempotent_build :
    ∀ st : Option SpkFile,
      (buildIfAbsent (buildIfAbsent st).1).2 = false ∧
      (buildIfAbsent (buildIfAbsent st).1).1 = (buildIfAbsent st).1 ∧
      ∀ body : Int, ∀ t : ℝ,
        Option.map (fun f => spkQuery f body t) (buildIfAbsent (buildIfAbsent st).1).1 =
          Option.map (fun f => spkQuery f body t) (buildIfAbsent st).1 := by
  intro st
  cases st <;> simp [buildIfAbsent]

/-- Witness for C9 starting from the absent-file state, with a concrete query
(MINUTE at epoch 0). -/
theorem C9_witness :
    (buildIfAbsent (buildIfAbsent none).1).2 = false ∧
    (buildIfAbsent (buildIfAbsent none).1).1 = (buildIfAbsent none).1 ∧
    Option.map (fun f => spkQuery f 2000060 0) (buildIfAbsent (buildIfAbsent none).1).1 =
      Option.map (fun f => spkQuery f 2000060 0) (buildIfAbsent none).1 :=
  ⟨(C9_idempotent_build none).1, (C9_idempotent_build none).2.1,
   (C9_idempotent_build none).2.2 2000060 0⟩

/-! ## Claim C10: handle release (corrected)

Lines 121-159 are straight-line: `spkopn`, two `spkw05` writes, `spkcls`,
with no `try/finally` and no context manager.  If either write raises, the
process aborts before line 159 and the handle is never closed.  (The
validation assertions run after line 159, when the handle is already
closed.)
-/

/-- C10 counterexample: on the exit path where the second segment write
raises, `spkcls` is never called. -/
theorem C10_counterexample :
    SpkCall.spkcls ∉ buildCallTrace false true := by decide

/-- C10 as amended: the handle is closed on the normal exit path (as the last
writer call), but on any exit path where a segment write raises, the handle is
not closed. -/
theorem C10_amended :
    buildCallTrace false false =
      [SpkCall.spkopn, SpkCall.spkw05 "minute_orbit",
        SpkCall.spkw05 "hour_orbit", SpkCall.spkcls] ∧
    SpkCall.spkcls ∉ buildCallTrace true false ∧
    SpkCall.spkcls ∉ buildCallTrace true true ∧
    SpkCall.spkcls ∉ buildCallTrace false true := by
  refine ⟨rfl, by decide, by decide, by decide⟩

/-! ## Claim C4: minute-hand direction every half hour -/

lemma vnorm_zero : vnorm ⟨0, 0, 0⟩ = 0 := by
  rw [vnorm, vdot]
  norm_num

lemma posMinute_even (m : ℕ) :
    posMinute (et0 + ((2 * m : ℕ) : ℝ) * halfHour) = ⟨aMinute, 0, 0⟩ := by
  have harg : spdMinute / aMinute * (et0 + ((2 * m : ℕ) : ℝ) * halfHour - -spd)
      = ((12 + m : ℤ) : ℝ) * (2 * π) := by
    rw [omegaMinute, et0, spd, halfHour, sph]
    push_cast
    ring
  rw [posMinute, circPos, harg, cos_two_pi_int, sin_two_pi_int]
  simp

lemma posMinute_odd (m : ℕ) :
    posMinute (et0 + ((2 * m + 1 : ℕ) : ℝ) * halfHour) = ⟨-aMinute, 0, 0⟩ := by
  have harg : spdMinute / aMinute * (et0 + ((2 * m + 1 : ℕ) : ℝ) * halfHour - -spd)
      = ((25 + 2 * m : ℤ) : ℝ) * π := by
    rw [omegaMinute, et0, spd, halfHour, sph]
    push_cast
    ring
  have hcos : Real.cos (((25 + 2 * m : ℤ) : ℝ) * π) = -1 := by
    have e : ((25 + 2 * m : ℤ) : ℝ) * π = ((12 + m : ℕ) : ℝ) * (2 * π) + π := by
      push_cast
      ring
    rw [e, Real.cos_nat_mul_two_pi_add_pi]
  rw [posMinute, circPos, harg, Real.sin_int_mul_pi, hcos]
  simp

lemma vhat_plus_x : vhat ⟨aMinute, 0, 0⟩ = ⟨1, 0, 0⟩ := by
  have e : (⟨aMinute, 0, 0⟩ : Vec3) = ⟨aMinute * 1, aMinute * 0, 0⟩ := by
    norm_num
  rw [e, vhat_circ aMinute 1 0 aMinute_pos (by norm_num)]

lemma vhat_minus_x : vhat ⟨-aMinute, 0, 0⟩ = ⟨-1, 0, 0⟩ := by
  have e : (⟨-aMinute, 0, 0⟩ : Vec3) = ⟨aMinute * (-1), aMinute * 0, 0⟩ := by
    norm_num
  rw [e, vhat_circ aMinute (-1) 0 aMinute_pos (by norm_num)]

/-- C4: at every validation step `k` of the half-hour loop (`k ≤ 48`, epochs
`ET0 + k*halfHour` from ET0 through ET0+day), the minute hand's unit
direction is `(+1,0,0)` when `k` is even and `(-1,0,0)` when `k` is odd,
within the loop's `1e-10` tolerance (the deviation is exactly zero in the
real-number model). -/
theorem C4_validation_geometry (k : ℕ) (_hk : k ≤ 48) :
    (k % 2 = 0 →
      xTolerance (vnorm (vsub ⟨1, 0, 0⟩ (vhat (posMinute (et0 + (k : ℝ) * halfHour)))))) ∧
    (k % 2 = 1 →
      xTolerance (vnorm (vsub ⟨-1, 0, 0⟩ (vhat (posMinute (et0 + (k : ℝ) * halfHour)))))) := by
  rcases Nat.even_or_odd k with ⟨m, hm⟩ | ⟨m, hm⟩
  · subst hm
    constructor
    · intro _
      have e2 : ((m + m : ℕ) : ℝ) = ((2 * m : ℕ) : ℝ) := by push_cast; ring
      rw [show ((m + m : ℕ) : ℝ) * halfHour = ((2 * m : ℕ) : ℝ) * halfHour by rw [e2]]
      rw [posMinute_even, vhat_plus_x, xTolerance]
      have e3 : vsub ⟨1, 0, 0⟩ ⟨1, 0, 0⟩ = ⟨0, 0, 0⟩ := by
        rw [vsub]; norm_num
      rw [e3, vnorm_zero]
      norm_num
    · intro hpar
      omega
  · subst hm
    constructor
    · intro hpar
      omega
    · intro _
      rw [posMinute_odd, vhat_minus_x, xTolerance]
      have e3 : vsub ⟨-1, 0, 0⟩ ⟨-1, 0, 0⟩ = ⟨0, 0, 0⟩ := by
        rw [vsub]; norm_num
      rw [e3, vnorm_zero]
      norm_num

/-- Witness for C4 at the concrete steps 1 (half hour, `(-1,0,0)`) and 2 (full
hour, `(+1,0,0)`). -/
theorem C4_witness :
    xTolerance (vnorm (vsub ⟨-1, 0, 0⟩
      (vhat (posMinute (et0 + ((1 : ℕ) : ℝ) * halfHour))))) ∧
    xTolerance (vnorm (vsub ⟨1, 0, 0⟩
      (vhat (posMinute (et0 + ((2 : ℕ) : ℝ) * halfHour))))) :=
  ⟨(C4_validation_geometry 1 (by norm_num)).2 rfl,
   (C4_validation_geometry 2 (by norm_num)).1 rfl⟩

/-! ## Claim C5: relative angle law at the whole hours -/

lemma vsep_comm (u v : Vec3) : vsep u v = vsep v u := by
  rw [vsep, vsep]
  congr 1
  rw [vdot, vdot, mul_comm (vnorm u)]
  ring

/-- Evaluation scheme for one whole-hour step: if the wrapped argument is
`±j*(pi/6)` up to a multiple of `2*pi` with `0 ≤ j ≤ 6`, the separation in
degrees is `30*j`. -/
lemma hour_angle_case (k j : ℕ) (m : ℤ) (hj : (j : ℝ) ≤ 6)
    (harg : 11 * π / 21600 * (et0 + (k : ℝ) * sph + spd) = (j : ℝ) * (π / 6) + m * (2 * π) ∨
      11 * π / 21600 * (et0 + (k : ℝ) * sph + spd) = -((j : ℝ) * (π / 6)) + m * (2 * π)) :
    dpr * vsep (posHour (et0 + (k : ℝ) * sph)) (posMinute (et0 + (k : ℝ) * sph)) =
      30 * (j : ℝ) := by
  have hpi := Real.pi_pos
  have hj0 : (0 : ℝ) ≤ (j : ℝ) := Nat.cast_nonneg j
  have hy0 : (0 : ℝ) ≤ (j : ℝ) * (π / 6) := by positivity
  have hyπ : (j : ℝ) * (π / 6) ≤ π := by nlinarith
  have hwrap : wrapAngle (11 * π / 21600 * (et0 + (k : ℝ) * sph + spd))
      = (j : ℝ) * (π / 6) := by
    rcases harg with h | h
    · rw [h, wrap_period, wrap_eq_self hy0 hyπ]
    · rw [h, wrap_period, wrap_even, wrap_eq_self hy0 hyπ]
  have h1 : vsep (posHour (et0 + (k : ℝ) * sph)) (posMinute (et0 + (k : ℝ) * sph))
      = wrapAngle (11 * π / 21600 * (et0 + (k : ℝ) * sph + spd)) := by
    rw [vsep_comm]
    have h2 := phaseAngle_eq (et0 + (k : ℝ) * sph)
    rw [phaseAngle] at h2
    rw [h2, wrapAngle]
  rw [h1, hwrap, dpr]
  field_simp
  ring

/-- C5: for every whole-hour offset `k` in `[0, 24)` from ET0, the angular
separation of the two hands in degrees equals
`min(30*k mod 360, 360 - (30*k mod 360))` within `1e-10` degrees (exactly, in
the real-number model). -/
theorem C5_relative_angle (k : ℕ) (hk : k < 24) :
    xDiffTolerance
      (dpr * vsep (posHour (et0 + (k : ℝ) * sph)) (posMinute (et0 + (k : ℝ) * sph)))
      (min ((30 * k % 360 : ℕ) : ℝ) (360 - ((30 * k % 360 : ℕ) : ℝ))) := by
  interval_cases k
  · have h := hour_angle_case 0 0 11 (by norm_num)
      (Or.inl (by simp only [et0, sph, spd]; push_cast; ring))
    simp only [xDiffTolerance, xTolerance]
    rw [h]
    norm_num [min_def]
  · have h := hour_angle_case 1 1 12 (by norm_num)
      (Or.inr (by simp only [et0, sph, spd]; push_cast; ring))
    simp only [xDiffTolerance, xTolerance]
    rw [h]
    norm_num [min_def]
  · have h := hour_angle_case 2 2 13 (by norm_num)
      (Or.inr (by simp only [et0, sph, spd]; push_cast; ring))
    simp only [xDiffTolerance, xTolerance]
    rw [h]
    norm_num [min_def]
  · have h := hour_angle_case 3 3 14 (by norm_num)
      (Or.inr (by simp only [et0, sph, spd]; push_cast; ring))
    simp only [xDiffTolerance, xTolerance]
    rw [h]
    norm_num [min_def]
  · have h := hour_angle_case 4 4 15 (by norm_num)
      (Or.inr (by simp only [et0, sph, spd]; push_cast; ring))
    simp only [xDiffTolerance, xTolerance]
    rw [h]
    norm_num [min_def]
  · have h := hour_angle_case 5 5 16 (by norm_num)
      (Or.inr (by simp only [et0, sph, spd]; push_cast; ring))
    simp only [xDiffTolerance, xTolerance]
    rw [h]
    norm_num [min_def]
  · have h := hour_angle_case 6 6 16 (by norm_num)
      (Or.inl (by simp only [et0, sph, spd]; push_cast; ring))
    simp only [xDiffTolerance, xTolerance]
    rw [h]
    norm_num [min_def]
  · have h := hour_angle_case 7 5 17 (by norm_num)
      (Or.inl (by simp only [et0, sph, spd]; push_cast; ring))
    simp only [xDiffTolerance, xTolerance]
    rw [h]
    norm_num [min_def]
  · have h := hour_angle_case 8 4 18 (by norm_num)
      (Or.inl (by simp only [et0, sph, spd]; push_cast; ring))
    simp only [xDiffTolerance, xTolerance]
    rw [h]
    norm_num [min_def]
  · have h := hour_angle_case 9 3 19 (by norm_num)
      (Or.inl (by simp only [et0, sph, spd]; push_cast; ring))
    simp only [xDiffTolerance, xTolerance]
    rw [h]
    norm_num [min_def]
  · have h := hour_angle_case 10 2 20 (by norm_num)
      (Or.inl (by simp only [et0, sph, spd]; push_cast; ring))
    simp only [xDiffTolerance, xTolerance]
    rw [h]
    norm_num [min_def]
  · have h := hour_angle_case 11 1 21 (by norm_num)
      (Or.inl (by simp only [et0, sph, spd]; push_cast; ring))
    simp only [xDiffTolerance, xTolerance]
    rw [h]
    norm_num [min_def]
  · have h := hour_angle_case 12 0 22 (by norm_num)
      (Or.inl (by simp only [et0, sph, spd]; push_cast; ring))
    simp only [xDiffTolerance, xTolerance]
    rw [h]
    norm_num [min_def]
  · have h := hour_angle_case 13 1 23 (by norm_num)
      (Or.inr (by simp only [et0, sph, spd]; push_cast; ring))
    simp only [xDiffTolerance, xTolerance]
    rw [h]
    norm_num [min_def]
  · have h := hour_angle_case 14 2 24 (by norm_num)
      (Or.inr (by simp only [et0, sph, spd]; push_cast; ring))
    simp only [xDiffTolerance, xTolerance]
    rw [h]
    norm_num [min_def]
  · have h := hour_angle_case 15 3 25 (by norm_num)
      (Or.inr (by simp only [et0, sph, spd]; push_cast; ring))
    simp only [xDiffTolerance, xTolerance]
    rw [h]
    norm_num [min_def]
  · have h := hour_angle_case 16 4 26 (by norm_num)
      (Or.inr (by simp only [et0, sph, spd]; push_cast; ring))
    simp only [xDiffTolerance, xTolerance]
    rw [h]
    norm_num [min_def]
  · have h := hour_angle_case 17 5 27 (by norm_num)
      (Or.inr (by simp only [et0, sph, spd]; push_cast; ring))
    simp only [xDiffTolerance, xTolerance]
    rw [h]
    norm_num [min_def]
  · have h := hour_angle_case 18 6 27 (by norm_num)
      (Or.inl (by simp only [et0, sph, spd]; push_cast; ring))
    simp only [xDiffTolerance, xTolerance]
    rw [h]
    norm_num [min_def]
  · have h := hour_angle_case 19 5 28 (by norm_num)
      (Or.inl (by simp only [et0, sph, spd]; push_cast; ring))
    simp only [xDiffTolerance, xTolerance]
    rw [h]
    norm_num [min_def]
  · have h := hour_angle_case 20 4 29 (by norm_num)
      (Or.inl (by simp only [et0, sph, spd]; push_cast; ring))
    simp only [xDiffTolerance, xTolerance]
    rw [h]
    norm_num [min_def]
  · have h := hour_angle_case 21 3 30 (by norm_num)
      (Or.inl (by simp only [et0, sph, spd]; push_cast; ring))
    simp only [xDiffTolerance, xTolerance]
    rw [h]
    norm_num [min_def]
  · have h := hour_angle_case 22 2 31 (by norm_num)
      (Or.inl (by simp only [et0, sph, spd]; push_cast; ring))
    simp only [xDiffTolerance, xTolerance]
    rw [h]
    norm_num [min_def]
  · have h := hour_angle_case 23 1 32 (by norm_num)
      (Or.inl (by simp only [et0, sph, spd]; push_cast; ring))
    simp only [xDiffTolerance, xTolerance]
    rw [h]
    norm_num [min_def]

/-- Witness for C5 at the concrete hour `k = 1` (expected separation 30
degrees). -/
theorem C5_witness :
    xDiffTolerance
      (dpr * vsep (posHour (et0 + ((1 : ℕ) : ℝ) * sph))
        (posMinute (et0 + ((1 : ℕ) : ℝ) * sph)))
      (min ((30 * 1 % 360 : ℕ) : ℝ) (360 - ((30 * 1 % 360 : ℕ) : ℝ))) :=
  C5_relative_angle 1 (by norm_num)

/-! ## Claims C1 and C2: event counts

The hands coincide at `t = 43200*k/11 - 86400` (beat period `43200/11` s) and
stand at 30 degrees at `t = (43200*k ± 3600)/11 - 86400`.  Counting those
times inside the two confinement windows gives 22, 23 and 44.
-/

lemma locmin_time_injective :
    Function.Injective (fun k : ℤ => (43200 * (k : ℝ) / 11 - 86400)) := by
  intro a b h
  simp only at h
  have h2 : (a : ℝ) = b := by linarith
  exact_mod_cast h2

lemma plus_time_injective :
    Function.Injective (fun k : ℤ => ((43200 * (k : ℝ) + 3600) / 11 - 86400)) := by
  intro a b h
  simp only at h
  have h2 : (a : ℝ) = b := by linarith
  exact_mod_cast h2

lemma minus_time_injective :
    Function.Injective (fun k : ℤ => ((43200 * (k : ℝ) - 3600) / 11 - 86400)) := by
  intro a b h
  simp only at h
  have h2 : (a : ℝ) = b := by linarith
  exact_mod_cast h2

/-- C1: the `LOCMIN` search over `[ET0-10ms, ET0+day-10ms]` finds exactly 22
hand alignments, and over the 20 ms longer window `[ET0-10ms, ET0+day+10ms]`
exactly 23 (the boundary-adjacent coincidence at `ET0+day` enters the
window). -/
theorem C1_alignment_counts :
    (gfpaLocmin (et0 - 10e-3) (et0 + spd - 10e-3)).ncard = 22 ∧
    (gfpaLocmin (et0 - 10e-3) (et0 + spd + 10e-3)).ncard = 23 := by
  constructor
  · have hset : gfpaLocmin (et0 - 10e-3) (et0 + spd - 10e-3) =
        ↑((Finset.Icc (11 : ℤ) 32).image
          (fun k : ℤ => (43200 * (k : ℝ) / 11 - 86400))) := by
      ext t
      simp only [gfpaLocmin, Set.mem_setOf_eq, Set.mem_Icc, Finset.coe_image,
        Set.mem_image, Finset.mem_coe, Finset.mem_Icc]
      constructor
      · rintro ⟨⟨hta, htb⟩, hmin⟩
        obtain ⟨k, rfl⟩ := (locmin_phase_iff t).mp hmin
        simp only [et0, spd] at hta htb
        norm_num at hta htb
        have h10 : (10 : ℝ) < (k : ℝ) := by linarith
        have h33 : (k : ℝ) < 33 := by linarith
        have hk1 : (10 : ℤ) < k := by exact_mod_cast h10
        have hk2 : k < (33 : ℤ) := by exact_mod_cast h33
        exact ⟨k, ⟨by omega, by omega⟩, rfl⟩
      · rintro ⟨k, ⟨hk1, hk2⟩, rfl⟩
        have hk1' : (11 : ℝ) ≤ (k : ℝ) := by exact_mod_cast hk1
        have hk2' : (k : ℝ) ≤ 32 := by exact_mod_cast hk2
        refine ⟨⟨?_, ?_⟩, (locmin_phase_iff _).mpr ⟨k, rfl⟩⟩
        · rw [et0]; norm_num; linarith
        · rw [et0, spd]; norm_num; linarith
    rw [hset, Set.ncard_coe_Finset,
      Finset.card_image_of_injective _ locmin_time_injective, Int.card_Icc]
    rfl
  · have hset : gfpaLocmin (et0 - 10e-3) (et0 + spd + 10e-3) =
        ↑((Finset.Icc (11 : ℤ) 33).image
          (fun k : ℤ => (43200 * (k : ℝ) / 11 - 86400))) := by
      ext t
      simp only [gfpaLocmin, Set.mem_setOf_eq, Set.mem_Icc, Finset.coe_image,
        Set.mem_image, Finset.mem_coe, Finset.mem_Icc]
      constructor
      · rintro ⟨⟨hta, htb⟩, hmin⟩
        obtain ⟨k, rfl⟩ := (locmin_phase_iff t).mp hmin
        simp only [et0, spd] at hta htb
        norm_num at hta htb
        have h10 : (10 : ℝ) < (k : ℝ) := by linarith
        have h34 : (k : ℝ) < 34 := by linarith
        have hk1 : (10 : ℤ) < k := by exact_mod_cast h10
        have hk2 : k < (34 : ℤ) := by exact_mod_cast h34
        exact ⟨k, ⟨by omega, by omega⟩, rfl⟩
      · rintro ⟨k, ⟨hk1, hk2⟩, rfl⟩
        have hk1' : (11 : ℝ) ≤ (k : ℝ) := by exact_mod_cast hk1
        have hk2' : (k : ℝ) ≤ 33 := by exact_mod_cast hk2
        refine ⟨⟨?_, ?_⟩, (locmin_phase_iff _).mpr ⟨k, rfl⟩⟩
        · rw [et0]; norm_num; linarith
        · rw [et0, spd]; norm_num; linarith
    rw [hset, Set.ncard_coe_Finset,
      Finset.card_image_of_injective _ locmin_time_injective, Int.card_Icc]
    rfl

/-- C2: the `=` search at 30 degrees (`30/dpr` radians) over
`[ET0-10ms, ET0+day+10ms]` finds exactly 44 crossings: one ascending and one
descending per beat of the hands. -/
theorem C2_thirty_degree_count :
    (gfpaEquals (30 / dpr) (et0 - 10e-3) (et0 + spd + 10e-3)).ncard = 44 := by
  have h30 : (30 : ℝ) / dpr = π / 6 := by
    rw [dpr]
    field_simp
    ring
  have hdisj : Disjoint
      ((Finset.Icc (11 : ℤ) 32).image
        (fun k : ℤ => ((43200 * (k : ℝ) + 3600) / 11 - 86400)))
      ((Finset.Icc (12 : ℤ) 33).image
        (fun k : ℤ => ((43200 * (k : ℝ) - 3600) / 11 - 86400))) := by
    rw [Finset.disjoint_left]
    rintro x hx1 hx2
    simp only [Finset.mem_image, Finset.mem_Icc] at hx1 hx2
    obtain ⟨a, _, ha⟩ := hx1
    obtain ⟨b, _, hb⟩ := hx2
    rw [← hb] at ha
    have h6 : ((6 * (b - a) : ℤ) : ℝ) = 1 := by push_cast; linarith
    have h6' : (6 * (b - a) : ℤ) = 1 := by exact_mod_cast h6
    omega
  have hset : gfpaEquals (30 / dpr) (et0 - 10e-3) (et0 + spd + 10e-3) =
      ↑(((Finset.Icc (11 : ℤ) 32).image
          (fun k : ℤ => ((43200 * (k : ℝ) + 3600) / 11 - 86400))) ∪
        ((Finset.Icc (12 : ℤ) 33).image
          (fun k : ℤ => ((43200 * (k : ℝ) - 3600) / 11 - 86400)))) := by
    ext t
    simp only [gfpaEquals, Set.mem_setOf_eq, Set.mem_Icc, Finset.coe_union,
      Set.mem_union, Finset.coe_image, Set.mem_image, Finset.mem_coe,
      Finset.mem_Icc, h30]
    constructor
    · rintro ⟨⟨hta, htb⟩, heq⟩
      obtain ⟨k, hk | hk⟩ := (equals_phase_iff t).mp heq
      · subst hk
        simp only [et0, spd] at hta htb
        norm_num at hta htb
        left
        have h10 : (10 : ℝ) < (k : ℝ) := by linarith
        have h33 : (k : ℝ) < 33 := by linarith
        have hk1 : (10 : ℤ) < k := by exact_mod_cast h10
        have hk2 : k < (33 : ℤ) := by exact_mod_cast h33
        exact ⟨k, ⟨by omega, by omega⟩, rfl⟩
      · subst hk
        simp only [et0, spd] at hta htb
        norm_num at hta htb
        right
        have h11 : (11 : ℝ) < (k : ℝ) := by linarith
        have h34 : (k : ℝ) < 34 := by linarith
        have hk1 : (11 : ℤ) < k := by exact_mod_cast h11
        have hk2 : k < (34 : ℤ) := by exact_mod_cast h34
        exact ⟨k, ⟨by omega, by omega⟩, rfl⟩
    · rintro (⟨k, ⟨hk1, hk2⟩, rfl⟩ | ⟨k, ⟨hk1, hk2⟩, rfl⟩)
      · have hk1' : (11 : ℝ) ≤ (k : ℝ) := by exact_mod_cast hk1
        have hk2' : (k : ℝ) ≤ 32 := by exact_mod_cast hk2
        refine ⟨⟨?_, ?_⟩, (equals_phase_iff _).mpr ⟨k, Or.inl rfl⟩⟩
        · rw [et0]; norm_num; linarith
        · rw [et0, spd]; norm_num; linarith
      · have hk1' : (12 : ℝ) ≤ (k : ℝ) := by exact_mod_cast hk1
        have hk2' : (k : ℝ) ≤ 33 := by exact_mod_cast hk2
        refine ⟨⟨?_, ?_⟩, (equals_phase_iff _).mpr ⟨k, Or.inr rfl⟩⟩
        · rw [et0]; norm_num; linarith
        · rw [et0, spd]; norm_num; linarith
  rw [hset, Set.ncard_coe_Finset, Finset.card_union_of_disjoint hdisj,
    Finset.card_image_of_injective _ plus_time_injective,
    Finset.card_image_of_injective _ minus_time_injective,
    Int.card_Icc, Int.card_Icc]
  rfl

end MinHour
